import Mathlib

/-!
# Verification of the tds-svc-agent service health agent

A shallow embedding of the pure core of the agent (WebSocket edition,
`svc-agent.js`): service-name normalization (`slug`), the three service
enumerators (systemd, launchd, docker) with their parsing, filtering and
sorting, the snapshot combinator, the reconnect backoff policy, the
reconnect-timer / attempts-counter state machine, the heartbeat staleness
check, system-identity resolution and persistence, and the `runInstall`
command handling.

External effects (command execution, the file system, timers, randomness,
wall-clock time) are passed in as explicit parameters: each embedded
function is a pure function of the external data the JavaScript code reads.
Wall-clock timestamp fields (`updatedAt`, `takenAt`) are omitted from the
record model since no verified property depends on them.
-/

namespace SvcAgent

/-- JavaScript `String.prototype.toLowerCase` restricted to the ASCII range.
Non-ASCII characters are left unchanged; this is adequate here because every
character kept by `slug` is ASCII (anything else is replaced by `-`) and the
exotic Unicode mappings whose lowercase lands in ASCII do not occur in
service names. -/
def jsToLower (c : Char) : Char :=
  if 'A' ≤ c ∧ c ≤ 'Z' then Char.ofNat (c.toNat + 32) else c

/-- The character class `[a-z0-9._-]` of the `slug` regex. -/
def slugAllowed (c : Char) : Bool :=
  decide (('a' ≤ c ∧ c ≤ 'z') ∨ ('0' ≤ c ∧ c ≤ '9') ∨ c = '.' ∨ c = '_' ∨ c = '-')

/-- Model of `replace(/[^a-z0-9._-]+/g, "-")`: each maximal run of disallowed
characters becomes a single `-`.  The boolean accumulator records whether the
previous character was part of a disallowed run. -/
def collapseAux : Bool → List Char → List Char
  | _, [] => []
  | prevBad, c :: cs =>
    if slugAllowed c then c :: collapseAux false cs
    else if prevBad then collapseAux true cs
    else '-' :: collapseAux true cs

/-- Model of `replace(/[^a-z0-9._-]+/g, "-")` on a character list. -/
def collapseRuns (l : List Char) : List Char := collapseAux false l

/-- Drop the maximal run of characters satisfying `p` from the end of a list. -/
def dropTrailing (p : Char → Bool) (l : List Char) : List Char :=
  (l.reverse.dropWhile p).reverse

/-- Model of `replace(/^-+|-+$/g, "")`: remove leading and trailing runs of `-`. -/
def trimDashes (l : List Char) : List Char :=
  dropTrailing (· == '-') (l.dropWhile (· == '-'))

/-- Model of `slug` from `svc-agent.js` (identical in both agent variants):
`String(s).toLowerCase().replace(/[^a-z0-9._-]+/g, "-").replace(/^-+|-+$/g, "")`. -/
def slug (s : String) : String :=
  String.mk (trimDashes (collapseRuns (s.data.map jsToLower)))

/-- Model of `mkId`: the local identifier `slug(HOSTNAME) + ":" + slug(serviceName)`,
with the hostname passed explicitly. -/
def mkId (host serviceName : String) : String :=
  slug host ++ ":" ++ slug serviceName

/-- Model of `mkGlobalId`: in the code the system id is interpolated unslugged:
`` `${SYSTEM_ID}:${slug(serviceName)}` ``. -/
def mkGlobalId (sysId serviceName : String) : String :=
  sysId ++ ":" ++ slug serviceName

/-- JavaScript whitespace test (`\s` / `trim`), restricted to the ASCII
whitespace characters; the exotic Unicode space characters do not occur in
the command outputs being parsed. -/
def jsWs (c : Char) : Bool :=
  c == ' ' || c == '\t' || c == '\n' || c == '\r' || c == '\x0b' || c == '\x0c'

/-- Model of `String.prototype.trim` on a character list. -/
def trimChars (l : List Char) : List Char :=
  dropTrailing jsWs (l.dropWhile jsWs)

/-- Model of `String.prototype.trim`. -/
def jsTrim (s : String) : String := String.mk (trimChars s.data)

/-- Model of `split(sep)` for a single-character separator (used for `"\n"` and `"|"`). -/
def splitOnChar (sep : Char) : List Char → List (List Char)
  | [] => [[]]
  | c :: cs =>
    if c = sep then [] :: splitOnChar sep cs
    else
      match splitOnChar sep cs with
      | [] => [[c]]
      | h :: t => (c :: h) :: t

/-- Model of `split("\n\n")`: leftmost, non-overlapping matches of the two-character
separator, exactly as JavaScript `String.prototype.split`. -/
def splitBlank : List Char → List (List Char)
  | [] => [[]]
  | '\n' :: '\n' :: rest => [] :: splitBlank rest
  | c :: rest =>
    match splitBlank rest with
    | [] => [[c]]
    | h :: t => (c :: h) :: t

/-- Model of `String.prototype.endsWith` on character lists. -/
def endsWithL (l suf : List Char) : Bool :=
  l.reverse.take suf.length == suf.reverse

/-- Model of `line.trim().split(/\s+/)` for a line already trimmed: splitting at
whitespace runs yields the non-empty whitespace-free fields. -/
def splitWsFields (l : List Char) : List (List Char) :=
  (splitOnChar ' ' ((l.map (fun c => if jsWs c then ' ' else c)))).filter (· ≠ [])

/-- All-digits test for `/^\d+$/`. -/
def allDigits (l : List Char) : Bool :=
  decide (l ≠ []) && l.all (fun c => decide ('0' ≤ c ∧ c ≤ '9'))

/-- JavaScript `Number(x)` restricted to the forms `launchctl` status columns
take: `undefined ↦ NaN` (`none`), `"" ↦ 0`, an optionally signed digit string
to its value, anything else to NaN.  (Float, hex and exponent literal forms
are not modeled; they do not occur in `launchctl list` output.) -/
def parseDigits (l : List Char) : Option Nat :=
  if allDigits l then
    some (l.foldl (fun n c => n * 10 + (c.toNat - '0'.toNat)) 0)
  else none

/-- See `parseDigits`; `none` models `NaN`. -/
def jsNumber : Option (List Char) → Option Int
  | none => none
  | some [] => some 0
  | some ('-' :: rest) => (parseDigits rest).map (fun n => -(n : Int))
  | some ('+' :: rest) => (parseDigits rest).map (fun n => (n : Int))
  | some l => (parseDigits l).map (fun n => (n : Int))

/-- Model of `/Up\s/i.test(status)`: an `U`/`u`, `P`/`p` pair followed by a whitespace
character, anywhere in the string. -/
def upTest : List Char → Bool
  | u :: p :: w :: rest =>
    if (u == 'U' || u == 'u') && (p == 'P' || p == 'p') && jsWs w then true
    else upTest (p :: w :: rest)
  | _ => false

/-- JavaScript `v || d` for an optional string property (absent and `""` are
falsy). -/
def jsOrStr (v : Option String) (d : String) : String :=
  match v with
  | some s => if s = "" then d else s
  | none => d

/-- JavaScript `v || d` for a numeric config value; `0` (and absence, modeled
as `0`) is falsy. -/
def jsOrNat (v d : Nat) : Nat := if v = 0 then d else v

/-- The parts of the agent configuration the enumerators read.  The JavaScript
fields `include` and `exclude` are named `includeList` and `excludeList`
because `include` is a Lean keyword. -/
structure Config where
  includeList : List String
  excludeList : List String
  dockerEnabled : Bool
deriving DecidableEq, Repr

/-- One enumerated service, as pushed by the enumerators (the wall-clock
`updatedAt` field is omitted). -/
structure ServiceRecord where
  id : String
  gid : String
  systemId : String
  host : String
  service : String
  description : String
  load : String
  active : String
  sub : String
  unitFileState : String
  path : String
  healthy : Bool
  platform : String
deriving DecidableEq, Repr

/-- The `key=value` accumulation loop of `listSystemdServices`: for each line,
`idx = line.indexOf("=")`; if `idx > 0` record the binding.  Later bindings
for the same key override earlier ones (`obj[k] = v`), which `lastLookup`
models by looking the reversed list up. -/
def parseProps (lines : List (List Char)) : List (String × String) :=
  lines.foldr
    (fun line acc =>
      match line.findIdx? (· == '=') with
      | some idx =>
        if idx > 0 then
          (String.mk (line.take idx), String.mk (line.drop (idx + 1))) :: acc
        else acc
      | none => acc)
    []

/-- Model of `obj[k]` where the last assignment wins. -/
def lastLookup (obj : List (String × String)) (k : String) : Option String :=
  obj.reverse.lookup k

/-- Insertion step of the sort model; `le` is the boolean comparison derived
from the JavaScript comparator. -/
def insertLe (le : ServiceRecord → ServiceRecord → Bool) (a : ServiceRecord) :
    List ServiceRecord → List ServiceRecord
  | [] => [a]
  | b :: l => if le a b then a :: b :: l else b :: insertLe le a l

/-- Model of `Array.prototype.sort(cmp)`: for a consistent comparator the
JavaScript sort returns a permutation of the input that is sorted with
respect to the comparator, which an insertion sort realizes. -/
def sortByLe (le : ServiceRecord → ServiceRecord → Bool) (l : List ServiceRecord) :
    List ServiceRecord :=
  l.foldr (insertLe le) []

/-- The body of the `listSystemdServices` loop for one blank-line-delimited
section: parse `key=value` properties, keep only `Id`s ending in `.service`,
apply the include then the exclude filter, and build the record.  `none`
models `continue`. -/
def systemdRecordOfSection (host sysId : String) (cfg : Config) (sec : String) :
    Option ServiceRecord :=
  let obj := parseProps (splitOnChar '\n' sec.data)
  match lastLookup obj "Id" with
  | none => none
  | some name =>
    if ¬ endsWithL name.data ".service".data then none
    else if cfg.includeList ≠ [] ∧ name ∉ cfg.includeList then none
    else if name ∈ cfg.excludeList then none
    else
      let rawActive := lastLookup obj "ActiveState"
      let rawSub := lastLookup obj "SubState"
      some
        { id := mkId host name
          gid := mkGlobalId sysId name
          systemId := sysId
          host := host
          service := name
          description := jsOrStr (lastLookup obj "Description") ""
          load := jsOrStr (lastLookup obj "LoadState") "unknown"
          active := jsOrStr rawActive "unknown"
          sub := jsOrStr rawSub "unknown"
          unitFileState := jsOrStr (lastLookup obj "UnitFileState") "unknown"
          path := jsOrStr (lastLookup obj "FragmentPath") ""
          healthy := (rawActive == some "active" && rawSub == some "running")
            || rawActive == some "active"
          platform := "linux" }

/-- The record list built by `listSystemdServices` before the final sort:
`stdout.split("\n\n").map(trim).filter(Boolean)` sections, each fed through
the loop body. -/
def systemdRecords (host sysId : String) (cfg : Config) (stdout : String) :
    List ServiceRecord :=
  (((splitBlank stdout.data).map trimChars).filter (· ≠ [])).filterMap
    (fun sec => systemdRecordOfSection host sysId cfg (String.mk sec))

/-- Model of `listSystemdServices`, parametrized by the `systemctl show` output and by
the comparison `le` realizing `a.service.localeCompare(b.service) <= 0`
(the locale-sensitive order is environment-dependent, so it is a parameter). -/
def listSystemdServices (host sysId : String) (cfg : Config) (stdout : String)
    (le : String → String → Bool) : List ServiceRecord :=
  sortByLe (fun a b => le a.service b.service) (systemdRecords host sysId cfg stdout)

/-- The body of the `listLaunchdServices` loop for one line of
`launchctl list` output (after the header line has been dropped). -/
def launchdRecordOfLine (host sysId : String) (cfg : Config) (line : List Char) :
    Option ServiceRecord :=
  if trimChars line = [] then none
  else
    let parts := splitWsFields (trimChars line)
    match parts.getLast? with
    | none => none
    | some labelL =>
      let label := String.mk labelL
      if label = "" then none
      else
        let pidRaw := parts.headD []
        let statusRaw := parts[1]?
        let running := decide (pidRaw ≠ []) && decide (pidRaw ≠ ['-']) && allDigits pidRaw
        let statusNum := jsNumber statusRaw
        let healthy := running && (statusNum == none || statusNum == some 0)
        if cfg.includeList ≠ [] ∧ label ∉ cfg.includeList then none
        else if label ∈ cfg.excludeList then none
        else
          some
            { id := mkId host label
              gid := mkGlobalId sysId label
              systemId := sysId
              host := host
              service := label
              description := ""
              load := if running then "loaded" else "not-loaded"
              active := if running then "active" else "inactive"
              sub := if running then "running" else "stopped"
              unitFileState := "unknown"
              path := ""
              healthy := healthy
              platform := "darwin" }

/-- Model of `listLaunchdServices`: `stdout.split("\n").slice(1)` lines through the
loop body, then the comparator sort (same parametrization as the systemd
enumerator). -/
def listLaunchdServices (host sysId : String) (cfg : Config) (stdout : String)
    (le : String → String → Bool) : List ServiceRecord :=
  sortByLe (fun a b => le a.service b.service)
    (((splitOnChar '\n' stdout.data).drop 1).filterMap
      (launchdRecordOfLine host sysId cfg))

/-- The `listDockerContainers` map body for one line of `docker ps` output:
`const [id, name, status] = l.split("|")`; a missing field is `undefined`,
which the template literals and the regex test coerce to the string
`"undefined"`. -/
def dockerRecordOfLine (host sysId : String) (line : List Char) : ServiceRecord :=
  let parts := (splitOnChar '|' line).map String.mk
  let cid := parts.getD 0 "undefined"
  let name := parts.getD 1 "undefined"
  let status := parts.getD 2 "undefined"
  let up := upTest status.data
  { id := mkId host ("docker:" ++ name)
    gid := mkGlobalId sysId ("docker:" ++ name)
    systemId := sysId
    host := host
    service := "docker:" ++ name
    description := "Container " ++ cid
    load := "loaded"
    active := if up then "active" else "inactive"
    sub := status
    unitFileState := "container"
    path := ""
    healthy := up
    platform := "docker" }

/-- Model of `listDockerContainers`: returns `[]` unless container support is enabled;
`stdout.trim().split("\n").filter(Boolean)` lines are mapped to records with
no include/exclude filtering and no sort. -/
def listDockerContainers (host sysId : String) (cfg : Config) (stdout : String) :
    List ServiceRecord :=
  if ¬ cfg.dockerEnabled then []
  else
    ((splitOnChar '\n' (trimChars stdout.data)).filter (· ≠ [])).map
      (fun l => dockerRecordOfLine host sysId l)

/-- Lexicographic codepoint order on character lists (a concrete total
comparison used to instantiate the comparator parameter). -/
def lexLe : List Char → List Char → Bool
  | [], _ => true
  | _ :: _, [] => false
  | a :: as, b :: bs =>
    if a.toNat < b.toNat then true
    else if b.toNat < a.toNat then false
    else lexLe as bs

/-- Codepoint-ordinal string comparison (a concrete instantiation of the
comparator parameter of the enumerators). -/
def strLe (a b : String) : Bool := lexLe a.data b.data

/-- Model of `takeSnapshot`: the applicable enumerators run and their outputs are
concatenated in the fixed order linux, mac, docker (`Promise.all` preserves
the order the parts were pushed). -/
def takeSnapshot (isLinux isMac : Bool) (host sysId : String) (cfg : Config)
    (systemdOut launchdOut dockerOut : String) (le : String → String → Bool) :
    List ServiceRecord :=
  (if isLinux then listSystemdServices host sysId cfg systemdOut le else []) ++
    (if isMac then listLaunchdServices host sysId cfg launchdOut le else []) ++
      (if cfg.dockerEnabled then listDockerContainers host sysId cfg dockerOut else [])

/-! ## Reconnect backoff (`scheduleReconnect`) -/

/-- Model of `const base = Math.max(100, config.ws.reconnectBaseMs || 1000)`. -/
def effBase (cfgBase : Nat) : Nat := max 100 (jsOrNat cfgBase 1000)

/-- Model of `const max = Math.max(base, config.ws.reconnectMaxMs || 30000)`. -/
def effMax (cfgBase cfgMax : Nat) : Nat := max (effBase cfgBase) (jsOrNat cfgMax 30000)

/-- Model of `Math.min(max, Math.floor(base * Math.pow(2, reconnectAttempts)))`: the
jitter-free part of the reconnect delay.  The floating-point product
`base * 2^n` is exact (multiplication by a power of two), and past overflow
the `min` pins the value to `max`, so the natural-number formula is faithful. -/
def reconnectBackoff (cfgBase cfgMax attempts : Nat) : Nat :=
  min (effMax cfgBase cfgMax) (effBase cfgBase * 2 ^ attempts)

/-- Model of `delay = backoff + jitter` where `jitter = Math.floor(Math.random()*200)`
is passed in (`0 ≤ jitter ≤ 199`). -/
def reconnectDelay (cfgBase cfgMax attempts jitter : Nat) : Nat :=
  reconnectBackoff cfgBase cfgMax attempts + jitter

/-! ## Connection-manager state machine

The mutable module state `wsTimerReconnect` and `reconnectAttempts` together
with the events that touch them.  `liveTimers` counts `setTimeout` callbacks
scheduled by `scheduleReconnect` and not yet fired; `timerPending` is the
`wsTimerReconnect` handle viewed as a boolean.  Handlers run to completion on
the single JavaScript thread, so each event is one atomic step. -/

structure ConnState where
  timerPending : Bool
  liveTimers : Nat
  reconnectAttempts : Nat
deriving DecidableEq, Repr

/-- The initial module state. -/
def connInit : ConnState := { timerPending := false, liveTimers := 0, reconnectAttempts := 0 }

/-- Model of `scheduleReconnect`'s effect on the state: a no-op while a reconnect
timer is outstanding, otherwise it schedules one timer. -/
def scheduleReconnectStep (s : ConnState) : ConnState :=
  if s.timerPending then s
  else { s with timerPending := true, liveTimers := s.liveTimers + 1 }

/-- The events that can touch the reconnect timer or attempts counter:
an explicit `scheduleReconnect` call, the reconnect timer firing (its
callback clears `wsTimerReconnect` and calls `connectWS`, which itself
changes neither field), the socket `open` handler (`reconnectAttempts = 0`),
the socket `close` handler (`reconnectAttempts++` then `scheduleReconnect()`),
and the socket `error` handler (no state change). -/
inductive ConnEvent where
  | schedule
  | timerFire
  | opened
  | closed
  | errored
deriving DecidableEq, Repr

/-- One atomic handler execution. -/
def connStep : ConnEvent → ConnState → ConnState
  | .schedule, s => scheduleReconnectStep s
  | .timerFire, s =>
    if s.timerPending then
      { s with timerPending := false, liveTimers := s.liveTimers - 1 }
    else s
  | .opened, s => { s with reconnectAttempts := 0 }
  | .closed, s =>
    scheduleReconnectStep { s with reconnectAttempts := s.reconnectAttempts + 1 }
  | .errored, s => s

/-- States reachable from the initial module state by any event sequence. -/
inductive ConnReachable : ConnState → Prop where
  | init : ConnReachable connInit
  | step (e : ConnEvent) {s : ConnState} (h : ConnReachable s) : ConnReachable (connStep e s)

/-! ## Heartbeat (`startHeartbeat`) -/

/-- Model of `const interval = Math.max(5, config.ws.heartbeatSec || 25) * 1000`:
the clamped base interval the staleness check compares against
(`now - lastPongAt > interval * 2`). -/
def hbStaleIntervalMs (hbSec : Nat) : Nat := max 5 (jsOrNat hbSec 25) * 1000

/-- The actual `setInterval` period,
`Math.floor((config.ws.heartbeatSec || 25) * 1000)` — note: not clamped. -/
def hbTickPeriodMs (hbSec : Nat) : Nat := jsOrNat hbSec 25 * 1000

/-- Model of `const ms = Math.max(5, config.reporting.intervalSec || 30) * 1000`
(`startPeriodicReports`). -/
def reportIntervalMs (intervalSec : Nat) : Nat := max 5 (jsOrNat intervalSec 30) * 1000

/-- The connection-liveness state the heartbeat callback reads and writes:
whether the socket is `OPEN`, the `lastPongAt` timestamp (0 until the first
`open`), and what the callback did to the socket (`terminate()` is the
forcible teardown; the callback never calls the graceful `close()`). -/
structure HBState where
  wsOpen : Bool
  lastPongAt : Nat
  terminated : Bool
  gracefulClosed : Bool
deriving DecidableEq, Repr

/-- One execution of the `setInterval` heartbeat callback at wall-clock time
`now`: it returns early unless the socket is open, pings, and terminates the
socket when `lastPongAt && now - lastPongAt > interval * 2`. -/
def heartbeatTick (hbSec now : Nat) (s : HBState) : HBState :=
  if ¬ s.wsOpen then s
  else if s.lastPongAt ≠ 0 ∧ now - s.lastPongAt > hbStaleIntervalMs hbSec * 2 then
    { s with terminated := true }
  else s

/-! ## System identity (`initSystemId`) -/

/-- One persisted write: `fs.writeFileSync(p, value + "\n", { mode: 0o600 })`. -/
structure WriteOp where
  path : String
  contents : String
  mode : Nat
deriving DecidableEq, Repr

/-- The external world `initSystemId` reads, passed explicitly: the config
override (`""` models an absent/falsy `config.systemId`), the file system
(`fileContents p` is the content of an existing, readable file at `p`),
writability of paths, the platform flags, the raw `ioreg` output on macOS,
the hardware-hash fallback (the SHA-256 derivation over hostname and MAC
addresses is modeled as an environment-supplied value, `none` when the
interface enumeration throws), and the `crypto.randomUUID()` value. -/
structure IdEnv where
  cfgSystemId : String
  fileContents : String → Option String
  writable : String → Bool
  isLinux : Bool
  isMac : Bool
  macUUIDRaw : String
  hwHash : Option String
  randomId : String

/-- Model of `readFirstExisting`: the first existing candidate's trimmed content;
read errors fall through to the next candidate. -/
def readFirstExisting (fileContents : String → Option String) :
    List String → Option String
  | [] => none
  | p :: ps =>
    match fileContents p with
    | some c => some (jsTrim c)
    | none => readFirstExisting fileContents ps

/-- Model of `writeFirstWritable`: the write performed at the first writable path
(`none` when every candidate write throws). -/
def writeFirstWritable (writable : String → Bool) (paths : List String)
    (value : String) : Option WriteOp :=
  match paths.find? writable with
  | some p => some { path := p, contents := value ++ "\n", mode := 0o600 }
  | none => none

/-- Model of `getLinuxMachineId`: `/etc/machine-id`, else the dbus copy, else `null`. -/
def getLinuxMachineId (fileContents : String → Option String) : Option String :=
  match fileContents "/etc/machine-id" with
  | some c => some (jsTrim c)
  | none =>
    match fileContents "/var/lib/dbus/machine-id" with
    | some c => some (jsTrim c)
    | none => none

/-- Model of `getMacPlatformUUID`: the trimmed `ioreg` output, `null` when empty. -/
def getMacPlatformUUID (raw : String) : Option String :=
  let v := jsTrim raw
  if v = "" then none else some v

/-- JavaScript `v || fallback` chaining for optional strings: `""` is falsy. -/
def truthyOr (v : Option String) (fallback : Option String) : Option String :=
  match v with
  | some s => if s = "" then fallback else some s
  | none => fallback

/-- The tail of `initSystemId` past the persisted-file check: the platform
native id, then the hardware-hash fallback, then `crypto.randomUUID()`, and
the best-effort persistence of the result. -/
def initSystemIdRest (env : IdEnv) (candidates : List String) :
    String × Option WriteOp :=
  let osId0 : Option String :=
    if env.isLinux then getLinuxMachineId env.fileContents
    else if env.isMac then getMacPlatformUUID env.macUUIDRaw
    else none
  let osId : String := ((truthyOr osId0 env.hwHash).getD env.randomId)
  let osId : String := if osId = "" then env.randomId else osId
  (osId, writeFirstWritable env.writable candidates osId)

/-- Model of `initSystemId`: config override first (returned trimmed, no persistence);
then a previously persisted value (returned as-is, no persistence); then the
fallback chain of `initSystemIdRest`.  The returned pair is the resolved
identity and the write performed, if any. -/
def initSystemId (env : IdEnv) (candidates : List String) :
    String × Option WriteOp :=
  if env.cfgSystemId ≠ "" then (jsTrim env.cfgSystemId, none)
  else
    match readFirstExisting env.fileContents candidates with
    | some persisted =>
      if persisted ≠ "" then (persisted, none)
      else initSystemIdRest env candidates
    | none => initSystemIdRest env candidates

/-! ## Remote install (`runLocalInstallSh` and the `runInstall` handler) -/

/-- Model of `s.slice(-n)` for a string: the last `n` characters (the whole string
when it is shorter). -/
def jsSliceLast (n : Nat) (s : String) : String :=
  String.mk (s.data.drop (s.data.length - n))

/-- The observable outcome of one `install.sh` child process: captured
stdout, captured stderr, and the exit code. -/
structure InstallRun where
  out : String
  err : String
  code : Int
deriving DecidableEq, Repr

/-- Model of `err || out || code` from the failure message of `runLocalInstallSh`
(`""` is falsy; a number interpolates as its decimal string). -/
def installFailTail (r : InstallRun) : String :=
  if r.err ≠ "" then r.err else if r.out ≠ "" then r.out else toString r.code

/-- The `close` handler of `runLocalInstallSh`: non-zero exit rejects with
`` `install.sh failed (code ${code}): ${err || out || code}`.trim() ``,
zero exit resolves with `(out || "").slice(-4000)` — stdout only. -/
def runLocalInstallSh (r : InstallRun) : Except String String :=
  if r.code ≠ 0 then
    .error (jsTrim ("install.sh failed (code " ++ toString r.code ++ "): " ++
      installFailTail r))
  else .ok (jsSliceLast 4000 r.out)

/-- The `installResult` reply frame. -/
structure InstallResultMsg where
  ok : Bool
  stdout : Option String
  error : Option String
deriving DecidableEq, Repr

/-- The `runInstall` branch of `handleMessage`: on success reply
`{ok: true, stdout}` and schedule a restart iff requested; on failure reply
`{ok: false, error}` (the `catch` swallows the error — the process keeps
running) and never restart.  The boolean result records whether a restart
was scheduled. -/
def handleRunInstall (r : InstallRun) (restart : Bool) : InstallResultMsg × Bool :=
  match runLocalInstallSh r with
  | .ok s => ({ ok := true, stdout := some s, error := none }, restart)
  | .error e => ({ ok := false, stdout := none, error := some e }, false)

/-! ## Helper lemmas -/

theorem mem_insertLe {le : ServiceRecord → ServiceRecord → Bool} {a x : ServiceRecord}
    {l : List ServiceRecord} : x ∈ insertLe le a l ↔ x = a ∨ x ∈ l := by
  induction l with
  | nil => simp [insertLe]
  | cons b t ih =>
    simp only [insertLe]
    split
    · simp [List.mem_cons]
    · simp only [List.mem_cons, ih]
      tauto

theorem sortByLe_cons (le : ServiceRecord → ServiceRecord → Bool) (a : ServiceRecord)
    (l : List ServiceRecord) : sortByLe le (a :: l) = insertLe le a (sortByLe le l) := rfl

theorem mem_sortByLe {le : ServiceRecord → ServiceRecord → Bool} {x : ServiceRecord}
    {l : List ServiceRecord} : x ∈ sortByLe le l ↔ x ∈ l := by
  induction l with
  | nil => simp [sortByLe]
  | cons a t ih => rw [sortByLe_cons, mem_insertLe, ih, List.mem_cons]

theorem pairwise_insertLe {le : ServiceRecord → ServiceRecord → Bool}
    (htot : ∀ a b, le a b = true ∨ le b a = true)
    (htrans : ∀ a b c, le a b = true → le b c = true → le a c = true)
    {a : ServiceRecord} {l : List ServiceRecord}
    (h : List.Pairwise (fun x y => le x y = true) l) :
    List.Pairwise (fun x y => le x y = true) (insertLe le a l) := by
  induction l with
  | nil => simp [insertLe]
  | cons b t ih =>
    rcases List.pairwise_cons.mp h with ⟨hb, ht⟩
    simp only [insertLe]
    split
    · refine List.Pairwise.cons ?_ h
      intro y hy
      rcases List.mem_cons.mp hy with rfl | hyt
      · assumption
      · exact htrans a b y (by assumption) (hb y hyt)
    · refine List.Pairwise.cons ?_ (ih ht)
      intro y hy
      rcases mem_insertLe.mp hy with rfl | hyt
      · rcases htot b y with hby | hyb
        · exact hby
        · exact absurd hyb (by assumption)
      · exact hb y hyt

theorem pairwise_sortByLe {le : ServiceRecord → ServiceRecord → Bool}
    (htot : ∀ a b, le a b = true ∨ le b a = true)
    (htrans : ∀ a b c, le a b = true → le b c = true → le a c = true)
    (l : List ServiceRecord) :
    List.Pairwise (fun x y => le x y = true) (sortByLe le l) := by
  induction l with
  | nil => simp [sortByLe]
  | cons a t ih => rw [sortByLe_cons]; exact pairwise_insertLe htot htrans ih

theorem head?_dropWhile_not {p : Char → Bool} {l : List Char} {c : Char}
    (h : (l.dropWhile p).head? = some c) : p c = false := by
  induction l with
  | nil => simp [List.dropWhile] at h
  | cons a t ih =>
    rw [List.dropWhile_cons] at h
    split at h
    · exact ih h
    · rename_i hpa
      simp only [List.head?_cons, Option.some.injEq] at h
      subst h
      simpa using hpa

theorem mem_collapseAux {b : Bool} {l : List Char} {c : Char}
    (h : c ∈ collapseAux b l) : slugAllowed c = true := by
  induction l generalizing b with
  | nil => simp [collapseAux] at h
  | cons a t ih =>
    simp only [collapseAux] at h
    split at h
    · rcases List.mem_cons.mp h with rfl | hm
      · assumption
      · exact ih hm
    · split at h
      · exact ih h
      · rcases List.mem_cons.mp h with rfl | hm
        · decide
        · exact ih hm

theorem dropTrailing_append_right (p : Char → Bool) (l : List Char) :
    dropTrailing p l ++ (l.reverse.takeWhile p).reverse = l := by
  rw [dropTrailing, ← List.reverse_append, List.takeWhile_append_dropWhile,
    List.reverse_reverse]

theorem mem_dropTrailing {p : Char → Bool} {l : List Char} {c : Char}
    (h : c ∈ dropTrailing p l) : c ∈ l := by
  rw [dropTrailing, List.mem_reverse] at h
  exact List.mem_reverse.mp ((List.dropWhile_sublist _).mem h)

theorem getLast?_dropTrailing_not {p : Char → Bool} {l : List Char} {c : Char}
    (h : (dropTrailing p l).getLast? = some c) : p c = false := by
  rw [dropTrailing, List.getLast?_reverse] at h
  exact head?_dropWhile_not h

theorem head?_dropTrailing {p : Char → Bool} {l : List Char} {c : Char}
    (h : (dropTrailing p l).head? = some c) : l.head? = some c := by
  have hpre := dropTrailing_append_right p l
  cases hd : dropTrailing p l with
  | nil => rw [hd] at h; simp at h
  | cons a t =>
    rw [hd] at h hpre
    simp only [List.head?_cons, Option.some.injEq] at h
    subst h
    rw [← hpre]
    rfl

theorem dropWhile_append_cons (p : Char → Bool) (xs : List Char) (c : Char)
    (ys : List Char) (h : p c = false) :
    List.dropWhile p (xs ++ c :: ys) = xs.dropWhile p ++ c :: ys := by
  induction xs with
  | nil => simp [List.dropWhile_cons, h]
  | cons a t ih =>
    by_cases pa : p a = true
    · simpa [List.dropWhile_cons, pa] using ih
    · simp [List.dropWhile_cons, pa]

theorem dropTrailing_append (p : Char → Bool) (x y : List Char) (c : Char)
    (hc : c ∈ y) (hpc : p c = false) :
    dropTrailing p (x ++ y) = x ++ dropTrailing p y := by
  obtain ⟨s, t, rfl⟩ := List.append_of_mem hc
  unfold dropTrailing
  have h1 : (x ++ (s ++ c :: t)).reverse = t.reverse ++ c :: (s.reverse ++ x.reverse) := by
    simp [List.reverse_append, List.reverse_cons, List.append_assoc]
  have h2 : (s ++ c :: t).reverse = t.reverse ++ c :: s.reverse := by
    simp [List.reverse_append, List.reverse_cons]
  rw [h1, h2, dropWhile_append_cons p _ c _ hpc, dropWhile_append_cons p _ c _ hpc]
  simp [List.reverse_append, List.reverse_cons, List.reverse_reverse, List.append_assoc]

theorem lexLe_total : ∀ a b : List Char, lexLe a b = true ∨ lexLe b a = true := by
  intro a
  induction a with
  | nil => intro b; left; rfl
  | cons x xs ih =>
    intro b
    cases b with
    | nil => right; rfl
    | cons y ys =>
      simp only [lexLe]
      rcases Nat.lt_trichotomy x.toNat y.toNat with h | h | h
      · left; simp [h]
      · have hxy : ¬ x.toNat < y.toNat := by omega
        have hyx : ¬ y.toNat < x.toNat := by omega
        rcases ih ys with h1 | h1
        · left; simp [hxy, hyx, h1]
        · right; simp [hxy, hyx, h1]
      · right; simp [h]

theorem lexLe_trans : ∀ a b c : List Char,
    lexLe a b = true → lexLe b c = true → lexLe a c = true := by
  intro a
  induction a with
  | nil => intro b c _ _; rfl
  | cons x xs ih =>
    intro b c hab hbc
    cases b with
    | nil => simp [lexLe] at hab
    | cons y ys =>
      cases c with
      | nil => simp [lexLe] at hbc
      | cons z zs =>
        simp only [lexLe] at hab hbc ⊢
        rcases Nat.lt_trichotomy x.toNat y.toNat with h1 | h1 | h1 <;>
          rcases Nat.lt_trichotomy y.toNat z.toNat with h2 | h2 | h2 <;>
          simp_all <;> first
          | omega
          | exact ih ys zs hab hbc

theorem strLe_total (a b : String) : strLe a b = true ∨ strLe b a = true :=
  lexLe_total a.data b.data

theorem strLe_trans (a b c : String) :
    strLe a b = true → strLe b c = true → strLe a c = true :=
  lexLe_trans a.data b.data c.data

/-! ## C2 — slug normalization -/

/-- C2 (amended): for every service name the derived identifier consists only
of characters from `[a-z0-9._-]` (in particular it is lowercased, every
character of a disallowed run having been replaced by the single separator
`-`), and it has no leading and no trailing separator.  Losslessness is
false: see the counterexample. -/
theorem slug_normalized (s : String) :
    (∀ c ∈ (slug s).data, slugAllowed c = true)
  ∧ (∀ c, (slug s).data.head? = some c → c ≠ '-')
  ∧ (∀ c, (slug s).data.getLast? = some c → c ≠ '-') := by
  refine ⟨?_, ?_, ?_⟩
  · intro c hc
    have hc' : c ∈ collapseRuns (s.data.map jsToLower) := by
      have h1 := mem_dropTrailing (p := (· == '-'))
        (l := (collapseRuns (s.data.map jsToLower)).dropWhile (· == '-')) (c := c) hc
      exact (List.dropWhile_sublist _).mem h1
    exact mem_collapseAux hc'
  · intro c hc
    have h1 : ((collapseRuns (s.data.map jsToLower)).dropWhile (· == '-')).head? =
        some c := head?_dropTrailing hc
    have h2 := head?_dropWhile_not h1
    simpa using h2
  · intro c hc
    have h2 := getLast?_dropTrailing_not hc
    simpa using h2

/-- C2 (counterexample): `slug` is not lossless.  The distinct service names
`"a b"` and `"a  b"` — both containing characters outside `[a-z0-9._-]`, so
both inside the claim's domain — map to the same derived identifier. -/
theorem slug_not_lossless :
    slug "a b" = slug "a  b" ∧ "a b" ≠ "a  b"
  ∧ ¬ (∀ c ∈ "a b".data, slugAllowed c = true)
  ∧ ¬ (∀ c ∈ "a  b".data, slugAllowed c = true) := by decide

/-- Witness for `slug_normalized` at a concrete input. -/
theorem slug_normalized_witness :
    (∀ c ∈ (slug "Nginx Proxy!").data, slugAllowed c = true)
  ∧ (∀ c, (slug "Nginx Proxy!").data.head? = some c → c ≠ '-')
  ∧ (∀ c, (slug "Nginx Proxy!").data.getLast? = some c → c ≠ '-') :=
  slug_normalized "Nginx Proxy!"

/-! ## C5 — reconnect backoff bounds -/

/-- C5 (amended): for jitter `j < 200` (the value of
`Math.floor(Math.random()*200)`), the reconnect delay for attempt `n`
satisfies `min(max, base·2^n) ≤ delay ≤ min(max, base·2^n) + 200` with
`base`/`max` the clamped effective values; while the uncapped product has
not exceeded the cap the claimed lower bound `base·2^n ≤ delay` also holds;
and the jitter-free part is monotonically non-decreasing in `n`. -/
theorem reconnectDelay_bounds (cfgBase cfgMax n j : Nat) (hj : j < 200) :
    min (effMax cfgBase cfgMax) (effBase cfgBase * 2 ^ n) ≤
      reconnectDelay cfgBase cfgMax n j
  ∧ reconnectDelay cfgBase cfgMax n j ≤
      min (effMax cfgBase cfgMax) (effBase cfgBase * 2 ^ n) + 200
  ∧ (effBase cfgBase * 2 ^ n ≤ effMax cfgBase cfgMax →
      effBase cfgBase * 2 ^ n ≤ reconnectDelay cfgBase cfgMax n j)
  ∧ reconnectBackoff cfgBase cfgMax n ≤ reconnectBackoff cfgBase cfgMax (n + 1) := by
  refine ⟨Nat.le_add_right _ _, Nat.add_le_add_left (Nat.le_of_lt hj) _, ?_, ?_⟩
  · intro h
    unfold reconnectDelay reconnectBackoff
    rw [Nat.min_eq_right h]
    exact Nat.le_add_right _ _
  · unfold reconnectBackoff
    exact min_le_min (le_refl _)
      (Nat.mul_le_mul_left _ (Nat.pow_le_pow_right (by norm_num) (Nat.le_succ n)))

/-- C5 (counterexample): with the default configuration (base 1000 ms, max
30000 ms) and attempt 6, the delay is 30000 (+ jitter) which is strictly
below the claimed lower bound `base·2^6 = 64000`. -/
theorem reconnectDelay_below_claimed_lower_bound :
    reconnectDelay 1000 30000 6 0 = 30000
  ∧ effBase 1000 * 2 ^ 6 = 64000
  ∧ reconnectDelay 1000 30000 6 0 < effBase 1000 * 2 ^ 6 := by decide

/-- Witness for `reconnectDelay_bounds` at concrete inputs. -/
theorem reconnectDelay_bounds_witness :
    min (effMax 1000 30000) (effBase 1000 * 2 ^ 3) ≤ reconnectDelay 1000 30000 3 150
  ∧ reconnectDelay 1000 30000 3 150 ≤
      min (effMax 1000 30000) (effBase 1000 * 2 ^ 3) + 200
  ∧ (effBase 1000 * 2 ^ 3 ≤ effMax 1000 30000 →
      effBase 1000 * 2 ^ 3 ≤ reconnectDelay 1000 30000 3 150)
  ∧ reconnectBackoff 1000 30000 3 ≤ reconnectBackoff 1000 30000 (3 + 1) :=
  reconnectDelay_bounds 1000 30000 3 150 (by decide)

/-! ## C10 — implicit timing clamps -/

/-- C10 (amended): the periodic reporting interval is clamped to at least
5 s, the reconnect base to at least 100 ms, and the reconnect maximum to at
least the clamped base; for the heartbeat only the staleness-threshold base
interval is clamped to at least 5 s (the actual timer period is the
unclamped configured value — see the counterexample). -/
theorem timing_clamps (hbSec intervalSec cfgBase cfgMax : Nat) :
    5000 ≤ hbStaleIntervalMs hbSec
  ∧ 5000 ≤ reportIntervalMs intervalSec
  ∧ 100 ≤ effBase cfgBase
  ∧ effBase cfgBase ≤ effMax cfgBase cfgMax := by
  refine ⟨?_, ?_, Nat.le_max_left _ _, Nat.le_max_left _ _⟩
  · calc 5000 = 5 * 1000 := by norm_num
    _ ≤ max 5 (jsOrNat hbSec 25) * 1000 :=
      Nat.mul_le_mul_right 1000 (Nat.le_max_left _ _)
  · calc 5000 = 5 * 1000 := by norm_num
    _ ≤ max 5 (jsOrNat intervalSec 30) * 1000 :=
      Nat.mul_le_mul_right 1000 (Nat.le_max_left _ _)

/-- C10 (counterexample): with `heartbeatSec = 1` the actual `setInterval`
period is 1000 ms, below the claimed 5-second floor; only the staleness
threshold interval is clamped. -/
theorem heartbeat_period_not_clamped :
    hbTickPeriodMs 1 = 1000 ∧ hbTickPeriodMs 1 < 5000 ∧ hbStaleIntervalMs 1 = 5000 := by
  decide

/-! ## C6 — single pending reconnect timer, attempts reset only on open -/

theorem connReachable_timers {s : ConnState} (h : ConnReachable s) :
    s.liveTimers ≤ 1 ∧ (s.timerPending = true ↔ s.liveTimers = 1) := by
  induction h with
  | init => simp [connInit]
  | step e h ih =>
    rename_i st
    obtain ⟨h1, h2⟩ := ih
    cases e with
    | schedule =>
      simp only [connStep, scheduleReconnectStep]
      split
      · exact ⟨h1, h2⟩
      · rename_i hp
        simp only [Bool.not_eq_true] at hp
        have hne : st.liveTimers ≠ 1 := by
          intro hl
          have hpt := h2.mpr hl
          rw [hp] at hpt
          cases hpt
        have hz : st.liveTimers = 0 := by omega
        simp [hz]
    | timerFire =>
      simp only [connStep]
      split
      · rename_i hp
        have hl1 := h2.mp hp
        simp [hl1]
      · exact ⟨h1, h2⟩
    | opened => exact ⟨h1, h2⟩
    | closed =>
      simp only [connStep, scheduleReconnectStep]
      split
      · exact ⟨h1, h2⟩
      · rename_i hp
        simp only [Bool.not_eq_true] at hp
        have hne : st.liveTimers ≠ 1 := by
          intro hl
          have hpt := h2.mpr hl
          rw [hp] at hpt
          cases hpt
        have hz : st.liveTimers = 0 := by omega
        simp [hz]
    | errored => exact ⟨h1, h2⟩

/-- C6 (as claimed): in every reachable connection-manager state at most one
reconnect timer is live, a `scheduleReconnect` call while one is pending is
a no-op on the state, no event other than a successful `open` ever decreases
the reconnect attempts counter, and the counter becomes zero only through an
`open` (or because it already was zero). -/
theorem reconnect_timer_invariant (s : ConnState) (h : ConnReachable s) :
    s.liveTimers ≤ 1
  ∧ (s.timerPending = true → connStep .schedule s = s)
  ∧ (∀ e : ConnEvent, e ≠ .opened →
      s.reconnectAttempts ≤ (connStep e s).reconnectAttempts)
  ∧ (∀ e : ConnEvent, (connStep e s).reconnectAttempts = 0 →
      s.reconnectAttempts = 0 ∨ e = .opened) := by
  refine ⟨(connReachable_timers h).1, ?_, ?_, ?_⟩
  · intro hp
    simp [connStep, scheduleReconnectStep, hp]
  · intro e he
    cases e with
    | schedule => simp [connStep, scheduleReconnectStep]; split <;> simp
    | timerFire => simp [connStep]; split <;> simp
    | opened => exact absurd rfl he
    | closed =>
      simp only [connStep, scheduleReconnectStep]
      split <;> simp
    | errored => simp [connStep]
  · intro e he
    cases e with
    | schedule =>
      simp only [connStep, scheduleReconnectStep] at he
      split at he <;> simp_all
    | timerFire =>
      simp only [connStep] at he
      split at he <;> simp_all
    | opened => exact Or.inr rfl
    | closed =>
      simp only [connStep, scheduleReconnectStep] at he
      split at he <;> simp_all
    | errored => exact Or.inl he

/-- Witness for `reconnect_timer_invariant` at the initial state. -/
theorem reconnect_timer_invariant_witness :
    connInit.liveTimers ≤ 1
  ∧ (connInit.timerPending = true → connStep .schedule connInit = connInit)
  ∧ (∀ e : ConnEvent, e ≠ .opened →
      connInit.reconnectAttempts ≤ (connStep e connInit).reconnectAttempts)
  ∧ (∀ e : ConnEvent, (connStep e connInit).reconnectAttempts = 0 →
      connInit.reconnectAttempts = 0 ∨ e = .opened) :=
  reconnect_timer_invariant connInit ConnReachable.init

/-! ## C7 — heartbeat staleness forces termination within one tick -/

/-- C7: while the session is open (so `lastPongAt ≠ 0`, set on `open`), once
the time since the last acknowledgment exceeds twice the heartbeat staleness
interval, the next heartbeat tick — which occurs within one tick period of
the gap being exceeded — forcibly terminates the socket (`terminate()`,
never the graceful `close()`). -/
theorem heartbeat_stale_terminates (hbSec t0 u : Nat) (s : HBState)
    (hP : 0 < hbTickPeriodMs hbSec) (hopen : s.wsOpen = true)
    (hpong : s.lastPongAt ≠ 0)
    (hu : u = s.lastPongAt + hbStaleIntervalMs hbSec * 2 + 1) (ht0 : t0 ≤ u) :
    ∃ k : Nat,
      u ≤ t0 + k * hbTickPeriodMs hbSec
    ∧ t0 + k * hbTickPeriodMs hbSec < u + hbTickPeriodMs hbSec
    ∧ ∀ t, u ≤ t →
        (heartbeatTick hbSec t s).terminated = true
      ∧ (heartbeatTick hbSec t s).gracefulClosed = s.gracefulClosed := by
  refine ⟨(u - t0 + hbTickPeriodMs hbSec - 1) / hbTickPeriodMs hbSec, ?_, ?_, ?_⟩
  · have hdm := Nat.div_add_mod (u - t0 + hbTickPeriodMs hbSec - 1) (hbTickPeriodMs hbSec)
    have hmod := Nat.mod_lt (u - t0 + hbTickPeriodMs hbSec - 1) hP
    rw [Nat.mul_comm ((u - t0 + hbTickPeriodMs hbSec - 1) / hbTickPeriodMs hbSec)
      (hbTickPeriodMs hbSec)]
    omega
  · have hdm := Nat.div_add_mod (u - t0 + hbTickPeriodMs hbSec - 1) (hbTickPeriodMs hbSec)
    have hmod := Nat.mod_lt (u - t0 + hbTickPeriodMs hbSec - 1) hP
    rw [Nat.mul_comm ((u - t0 + hbTickPeriodMs hbSec - 1) / hbTickPeriodMs hbSec)
      (hbTickPeriodMs hbSec)]
    omega
  · intro t ht
    have hcond : s.lastPongAt ≠ 0 ∧ t - s.lastPongAt > hbStaleIntervalMs hbSec * 2 :=
      ⟨hpong, by omega⟩
    unfold heartbeatTick
    rw [if_neg (by simp [hopen]), if_pos hcond]
    exact ⟨rfl, rfl⟩

/-- Witness for `heartbeat_stale_terminates` at concrete inputs (default
25-second heartbeat, last pong at 5 ms, gap exceeded at 50006 ms). -/
theorem heartbeat_stale_terminates_witness :
    ∃ k : Nat,
      50006 ≤ 0 + k * hbTickPeriodMs 25
    ∧ 0 + k * hbTickPeriodMs 25 < 50006 + hbTickPeriodMs 25
    ∧ ∀ t, 50006 ≤ t →
        (heartbeatTick 25 t ⟨true, 5, false, false⟩).terminated = true
      ∧ (heartbeatTick 25 t ⟨true, 5, false, false⟩).gracefulClosed =
          (⟨true, 5, false, false⟩ : HBState).gracefulClosed :=
  heartbeat_stale_terminates 25 0 50006 ⟨true, 5, false, false⟩ (by decide) rfl
    (by decide) (by decide) (by decide)

/-! ## C1 — include/exclude filtering -/

theorem systemdRecordOfSection_spec {host sysId : String} {cfg : Config} {sec : String}
    {r : ServiceRecord} (h : systemdRecordOfSection host sysId cfg sec = some r) :
    ((cfg.includeList ≠ [] → r.service ∈ cfg.includeList) ∧ r.service ∉ cfg.excludeList)
  ∧ r.id = mkId host r.service := by
  simp only [systemdRecordOfSection] at h
  cases hid : lastLookup (parseProps (splitOnChar '\n' sec.data)) "Id" with
  | none => rw [hid] at h; cases h
  | some name =>
    rw [hid] at h
    simp only at h
    split_ifs at h with h1 h2 h3
    rw [Option.some.injEq] at h
    subst h
    refine ⟨⟨fun hne => ?_, h3⟩, rfl⟩
    by_contra hmem
    exact h2 ⟨hne, hmem⟩

theorem launchdRecordOfLine_spec {host sysId : String} {cfg : Config} {line : List Char}
    {r : ServiceRecord} (h : launchdRecordOfLine host sysId cfg line = some r) :
    ((cfg.includeList ≠ [] → r.service ∈ cfg.includeList) ∧ r.service ∉ cfg.excludeList)
  ∧ r.id = mkId host r.service := by
  simp only [launchdRecordOfLine] at h
  by_cases h0 : trimChars line = []
  · rw [if_pos h0] at h; cases h
  · rw [if_neg h0] at h
    cases hlast : (splitWsFields (trimChars line)).getLast? with
    | none => rw [hlast] at h; cases h
    | some labelL =>
      rw [hlast] at h
      simp only at h
      by_cases hl0 : (⟨labelL⟩ : String) = ""
      · rw [if_pos hl0] at h; cases h
      · rw [if_neg hl0] at h
        by_cases h2 : cfg.includeList ≠ [] ∧ (⟨labelL⟩ : String) ∉ cfg.includeList
        · rw [if_pos h2] at h; cases h
        · rw [if_neg h2] at h
          by_cases h3 : (⟨labelL⟩ : String) ∈ cfg.excludeList
          · rw [if_pos h3] at h; cases h
          · rw [if_neg h3] at h
            rw [Option.some.injEq] at h
            subst h
            refine ⟨⟨fun hne => ?_, h3⟩, rfl⟩
            by_contra hmem
            exact h2 ⟨hne, hmem⟩

theorem dockerRecordOfLine_id (host sysId : String) (line : List Char) :
    (dockerRecordOfLine host sysId line).id =
      mkId host (dockerRecordOfLine host sysId line).service := rfl

/-- C1 (amended): the two service-manager enumerators (Linux and macOS) apply
the include-list filter (when non-empty, only exactly listed names pass) and
then the exclude-list filter before a record appears in their output.  The
container enumerator applies neither filter — see the counterexample. -/
theorem serviceManager_enumerators_filter (host sysId : String) (cfg : Config)
    (sysdOut launchdOut : String) (le : String → String → Bool) (r : ServiceRecord) :
    (r ∈ listSystemdServices host sysId cfg sysdOut le →
      (cfg.includeList ≠ [] → r.service ∈ cfg.includeList) ∧ r.service ∉ cfg.excludeList)
  ∧ (r ∈ listLaunchdServices host sysId cfg launchdOut le →
      (cfg.includeList ≠ [] → r.service ∈ cfg.includeList) ∧ r.service ∉ cfg.excludeList) := by
  constructor
  · intro hr
    unfold listSystemdServices at hr
    rw [mem_sortByLe] at hr
    unfold systemdRecords at hr
    rcases List.mem_filterMap.mp hr with ⟨sec, _, hsec⟩
    exact (systemdRecordOfSection_spec hsec).1
  · intro hr
    unfold listLaunchdServices at hr
    rw [mem_sortByLe] at hr
    rcases List.mem_filterMap.mp hr with ⟨line, _, hline⟩
    exact (launchdRecordOfLine_spec hline).1

/-- C1 (counterexample): with a non-empty include list `["x"]` and exclude
list `["docker:web"]`, the container enumerator still emits the record for
`docker:web` — it is outside the include list and inside the exclude list. -/
theorem docker_enumerator_ignores_filters :
    (listDockerContainers "h" "s" ⟨["x"], ["docker:web"], true⟩
        "abc123|web|Up 3 hours").map ServiceRecord.service = ["docker:web"]
  ∧ (["x"] : List String) ≠ []
  ∧ "docker:web" ∉ (["x"] : List String)
  ∧ "docker:web" ∈ (["docker:web"] : List String) := by decide

/-- Witness for `serviceManager_enumerators_filter` at a concrete input. -/
theorem serviceManager_enumerators_filter_witness :
    ((⟨["a.service"], ["b.service"], false⟩ : Config).includeList ≠ [] →
      ({ id := "h:a.service", gid := "s:a.service", systemId := "s", host := "h",
         service := "a.service", description := "", load := "unknown",
         active := "active", sub := "running", unitFileState := "unknown",
         path := "", healthy := true, platform := "linux" } : ServiceRecord).service ∈
        (⟨["a.service"], ["b.service"], false⟩ : Config).includeList)
  ∧ ({ id := "h:a.service", gid := "s:a.service", systemId := "s", host := "h",
       service := "a.service", description := "", load := "unknown",
       active := "active", sub := "running", unitFileState := "unknown",
       path := "", healthy := true, platform := "linux" } : ServiceRecord).service ∉
      (⟨["a.service"], ["b.service"], false⟩ : Config).excludeList :=
  (serviceManager_enumerators_filter "h" "s" ⟨["a.service"], ["b.service"], false⟩
    "Id=a.service\nActiveState=active\nSubState=running\n\nId=b.service" "" strLe
    { id := "h:a.service", gid := "s:a.service", systemId := "s", host := "h",
      service := "a.service", description := "", load := "unknown",
      active := "active", sub := "running", unitFileState := "unknown",
      path := "", healthy := true, platform := "linux" }).1 (by decide)

/-! ## C4 — sortedness of enumerator output -/

/-- C4 (amended): the two service-manager enumerators sort their output
ascending by service name with respect to the comparison derived from
`localeCompare`, modeled as an arbitrary total and transitive boolean
comparator.  The container enumerator does not sort — see the
counterexample. -/
theorem serviceManager_enumerators_sorted (host sysId : String) (cfg : Config)
    (sysdOut launchdOut : String) (le : String → String → Bool)
    (htot : ∀ a b, le a b = true ∨ le b a = true)
    (htrans : ∀ a b c, le a b = true → le b c = true → le a c = true) :
    List.Pairwise (fun x y : ServiceRecord => le x.service y.service = true)
      (listSystemdServices host sysId cfg sysdOut le)
  ∧ List.Pairwise (fun x y : ServiceRecord => le x.service y.service = true)
      (listLaunchdServices host sysId cfg launchdOut le) :=
  ⟨pairwise_sortByLe (fun a b => htot a.service b.service)
      (fun a b c hab hbc => htrans a.service b.service c.service hab hbc) _,
    pairwise_sortByLe (fun a b => htot a.service b.service)
      (fun a b c hab hbc => htrans a.service b.service c.service hab hbc) _⟩

/-- C4 (counterexample): the container enumerator emits records in the
listing order of the runtime, which is not sorted by service name — here
`docker:b` precedes `docker:a` although `docker:a` is strictly smaller in
the codepoint order. -/
theorem docker_enumerator_unsorted :
    (listDockerContainers "h" "s" ⟨[], [], true⟩ "1|b|Up 1s\n2|a|Up 2s").map
        ServiceRecord.service = ["docker:b", "docker:a"]
  ∧ ¬ List.Pairwise (fun x y : ServiceRecord => strLe x.service y.service = true)
      (listDockerContainers "h" "s" ⟨[], [], true⟩ "1|b|Up 1s\n2|a|Up 2s") := by
  decide

/-- Witness for `serviceManager_enumerators_sorted` at a concrete input. -/
theorem serviceManager_enumerators_sorted_witness :
    List.Pairwise (fun x y : ServiceRecord => strLe x.service y.service = true)
      (listSystemdServices "h" "s" ⟨[], [], false⟩
        "Id=b.service\n\nId=a.service" strLe)
  ∧ List.Pairwise (fun x y : ServiceRecord => strLe x.service y.service = true)
      (listLaunchdServices "h" "s" ⟨[], [], false⟩
        "PID\tStatus\tLabel\n123\t0\tcom.x.y" strLe) :=
  serviceManager_enumerators_sorted "h" "s" ⟨[], [], false⟩
    "Id=b.service\n\nId=a.service" "PID\tStatus\tLabel\n123\t0\tcom.x.y" strLe
    strLe_total strLe_trans

/-! ## C3 — uniqueness of the local identifier -/

theorem takeSnapshot_id_shape {isLinux isMac : Bool} {host sysId : String}
    {cfg : Config} {o1 o2 o3 : String} {le : String → String → Bool}
    {r : ServiceRecord}
    (h : r ∈ takeSnapshot isLinux isMac host sysId cfg o1 o2 o3 le) :
    r.id = mkId host r.service := by
  unfold takeSnapshot at h
  rcases List.mem_append.mp h with h' | hdock
  · rcases List.mem_append.mp h' with hsys | hmac
    · cases isLinux with
      | false => simp at hsys
      | true =>
        rw [if_pos rfl] at hsys
        unfold listSystemdServices at hsys
        rw [mem_sortByLe] at hsys
        unfold systemdRecords at hsys
        rcases List.mem_filterMap.mp hsys with ⟨sec, _, hsec⟩
        exact (systemdRecordOfSection_spec hsec).2
    · cases isMac with
      | false => simp at hmac
      | true =>
        rw [if_pos rfl] at hmac
        unfold listLaunchdServices at hmac
        rw [mem_sortByLe] at hmac
        rcases List.mem_filterMap.mp hmac with ⟨line, _, hline⟩
        exact (launchdRecordOfLine_spec hline).2
  · cases hde : cfg.dockerEnabled with
    | false => rw [hde] at hdock; simp at hdock
    | true =>
      rw [hde, if_pos rfl] at hdock
      unfold listDockerContainers at hdock
      rw [hde, if_neg (fun hc => hc rfl)] at hdock
      rcases List.mem_map.mp hdock with ⟨line, _, hline⟩
      rw [← hline]
      exact dockerRecordOfLine_id host sysId line

/-- C3 (amended): within one snapshot, records whose service names do not
collide under `slug` have distinct local identifiers (every record's `id` is
`slug(host) + ":" + slug(service)`); uniqueness for slug-colliding names
fails — see the counterexample. -/
theorem localId_unique_of_distinct_slugs (isLinux isMac : Bool) (host sysId : String)
    (cfg : Config) (o1 o2 o3 : String) (le : String → String → Bool)
    (r1 r2 : ServiceRecord)
    (h1 : r1 ∈ takeSnapshot isLinux isMac host sysId cfg o1 o2 o3 le)
    (h2 : r2 ∈ takeSnapshot isLinux isMac host sysId cfg o1 o2 o3 le)
    (hs : slug r1.service ≠ slug r2.service) : r1.id ≠ r2.id := by
  rw [takeSnapshot_id_shape h1, takeSnapshot_id_shape h2]
  intro he
  apply hs
  unfold mkId at he
  have hd := congrArg String.data he
  rw [String.data_append, String.data_append, String.data_append,
    String.data_append, List.append_assoc, List.append_assoc] at hd
  exact String.ext (List.append_cancel_left (List.append_cancel_left hd))

/-- C3 (counterexample): the distinct systemd units `a b.service` and
`a-b.service` collide under `slug`, so the same snapshot holds two distinct
records (different `service` fields) carrying the same local identifier. -/
theorem localId_collision :
    (takeSnapshot true false "h" "sid" ⟨[], [], false⟩
        "Id=a b.service\n\nId=a-b.service" "" "" strLe).map ServiceRecord.id =
      ["h:a-b.service", "h:a-b.service"]
  ∧ (takeSnapshot true false "h" "sid" ⟨[], [], false⟩
        "Id=a b.service\n\nId=a-b.service" "" "" strLe).map ServiceRecord.service =
      ["a b.service", "a-b.service"] := by decide

/-- Witness for `localId_unique_of_distinct_slugs` at a concrete snapshot. -/
theorem localId_unique_of_distinct_slugs_witness :
    ({ id := "h:a.service", gid := "s:a.service", systemId := "s", host := "h",
       service := "a.service", description := "", load := "unknown",
       active := "unknown", sub := "unknown", unitFileState := "unknown",
       path := "", healthy := false, platform := "linux" } : ServiceRecord).id ≠
    ({ id := "h:b.service", gid := "s:b.service", systemId := "s", host := "h",
       service := "b.service", description := "", load := "unknown",
       active := "unknown", sub := "unknown", unitFileState := "unknown",
       path := "", healthy := false, platform := "linux" } : ServiceRecord).id :=
  localId_unique_of_distinct_slugs true false "h" "s" ⟨[], [], false⟩
    "Id=a.service\n\nId=b.service" "" "" strLe
    { id := "h:a.service", gid := "s:a.service", systemId := "s", host := "h",
      service := "a.service", description := "", load := "unknown",
      active := "unknown", sub := "unknown", unitFileState := "unknown",
      path := "", healthy := false, platform := "linux" }
    { id := "h:b.service", gid := "s:b.service", systemId := "s", host := "h",
      service := "b.service", description := "", load := "unknown",
      active := "unknown", sub := "unknown", unitFileState := "unknown",
      path := "", healthy := false, platform := "linux" }
    (by decide) (by decide) (by decide)

/-! ## C8 — persistence of the resolved system identity -/

/-- C8 (amended): when the identity is resolved through the fallback chain
(no config override and no persisted candidate file) and some candidate path
is writable, `initSystemId` writes the resolved value (plus newline) with
owner-only permissions `0o600` to the first writable candidate before
returning.  A resolution from an existing persisted file performs no write —
see the counterexample. -/
theorem initSystemId_persists (env : IdEnv) (candidates : List String)
    (hover : env.cfgSystemId = "")
    (hnof : readFirstExisting env.fileContents candidates = none)
    (hw : ∃ p ∈ candidates, env.writable p = true) :
    ∃ w : WriteOp, (initSystemId env candidates).2 = some w
      ∧ w.mode = 0o600
      ∧ w.contents = (initSystemId env candidates).1 ++ "\n"
      ∧ candidates.find? env.writable = some w.path := by
  have hsome : (candidates.find? env.writable).isSome := List.find?_isSome.mpr hw
  obtain ⟨q, hq⟩ := Option.isSome_iff_exists.mp hsome
  have hinit : initSystemId env candidates = initSystemIdRest env candidates := by
    unfold initSystemId
    rw [if_neg (by simp [hover]), hnof]
  rw [hinit]
  simp only [initSystemIdRest, writeFirstWritable]
  rw [hq]
  exact ⟨_, rfl, rfl, rfl, rfl⟩

/-- C8 (counterexample): with a persisted identity file present — a
non-override resolution the claim covers — `initSystemId` returns the stored
value and performs no write, although every candidate path is writable. -/
theorem initSystemId_no_write_on_persisted :
    initSystemId
      { cfgSystemId := ""
        fileContents := fun p =>
          if p = "/etc/tds-svc-agent.id" then some "abc\n" else none
        writable := fun _ => true
        isLinux := true, isMac := false, macUUIDRaw := ""
        hwHash := some "sha256-0000", randomId := "r-uuid" }
      ["/etc/tds-svc-agent.id"] = ("abc", none) := by decide

/-- Witness for `initSystemId_persists` at a concrete environment with no
persisted file and one writable candidate. -/
theorem initSystemId_persists_witness :
    ∃ w : WriteOp,
      (initSystemId
        { cfgSystemId := "", fileContents := fun _ => none,
          writable := fun p => p == "/tmp/id", isLinux := false, isMac := false,
          macUUIDRaw := "", hwHash := some "sha256-ff", randomId := "r" }
        ["/nope", "/tmp/id"]).2 = some w
    ∧ w.mode = 0o600
    ∧ w.contents = (initSystemId
        { cfgSystemId := "", fileContents := fun _ => none,
          writable := fun p => p == "/tmp/id", isLinux := false, isMac := false,
          macUUIDRaw := "", hwHash := some "sha256-ff", randomId := "r" }
        ["/nope", "/tmp/id"]).1 ++ "\n"
    ∧ (["/nope", "/tmp/id"] : List String).find? (fun p => p == "/tmp/id") =
        some w.path :=
  initSystemId_persists
    { cfgSystemId := "", fileContents := fun _ => none,
      writable := fun p => p == "/tmp/id", isLinux := false, isMac := false,
      macUUIDRaw := "", hwHash := some "sha256-ff", randomId := "r" }
    ["/nope", "/tmp/id"] rfl (by decide) (by decide)

/-! ## C9 — runInstall result handling -/

theorem dropWhile_cons_id (p : Char → Bool) (a : Char) (l : List Char)
    (h : p a = false) : List.dropWhile p (a :: l) = a :: l := by
  rw [List.dropWhile_cons, h]
  simp

/-- The failure message of `runLocalInstallSh` after `trim`: the fixed prefix
starts with a non-whitespace character, so the left trim is the identity, and
when the interpolated tail holds at least one non-whitespace character the
right trim only strips trailing whitespace of the tail. -/
theorem jsTrim_failMessage (code : Int) (B : String) (c : Char)
    (hc : c ∈ B.data) (hcw : jsWs c = false) :
    jsTrim ("install.sh failed (code " ++ toString code ++ "): " ++ B) =
      "install.sh failed (code " ++ toString code ++ "): " ++
        String.mk (dropTrailing jsWs B.data) := by
  apply String.ext
  show trimChars (("install.sh failed (code " ++ toString code ++ "): " ++ B).data) =
    ("install.sh failed (code " ++ toString code ++ "): " ++
      String.mk (dropTrailing jsWs B.data)).data
  simp only [String.data_append]
  show trimChars (("install.sh failed (code ".data ++ (toString code).data ++
      "): ".data) ++ B.data) = _
  unfold trimChars
  have hshape : ("install.sh failed (code ".data ++ (toString code).data ++
      "): ".data) ++ B.data =
      'i' :: (("nstall.sh failed (code ".data ++ (toString code).data ++
        "): ".data) ++ B.data) := by
    rw [show "install.sh failed (code ".data =
      'i' :: "nstall.sh failed (code ".data from rfl]
    simp [List.cons_append]
  rw [hshape, dropWhile_cons_id _ _ _ (by decide), ← hshape,
    dropTrailing_append jsWs _ B.data c hc hcw]

/-- C9 (amended): when the installer exits zero, the reply has `ok = true`
and carries the captured standard output — stderr is not included (see the
counterexample) — truncated to its last 4000 characters, and a restart is
scheduled iff requested; when it exits non-zero, the reply has `ok = false`
with the error text `install.sh failed (code N): tail` carrying the exit
code and the (right-trimmed) captured output/error text, no restart happens,
and the handler returns a reply instead of propagating the failure. -/
theorem runInstall_replies (r0 r1 : InstallRun) (restart : Bool)
    (h0 : r0.code = 0) (h1 : r1.code ≠ 0)
    (c : Char) (hc : c ∈ (installFailTail r1).data) (hcw : jsWs c = false) :
    handleRunInstall r0 restart =
      ({ ok := true, stdout := some (jsSliceLast 4000 r0.out), error := none }, restart)
  ∧ handleRunInstall r1 restart =
      ({ ok := false, stdout := none,
         error := some ("install.sh failed (code " ++ toString r1.code ++ "): " ++
           String.mk (dropTrailing jsWs (installFailTail r1).data)) }, false) := by
  constructor
  · unfold handleRunInstall runLocalInstallSh
    rw [if_neg (by simp [h0])]
  · unfold handleRunInstall runLocalInstallSh
    rw [if_pos h1, jsTrim_failMessage r1.code (installFailTail r1) c hc hcw]

/-- C9 (counterexample): on success the reply carries only the captured
stdout; the captured stderr is dropped, so the reply does not carry the
combined output truncated to the last 4000 characters. -/
theorem runInstall_success_not_combined :
    handleRunInstall ⟨"A", "B", 0⟩ false =
      ({ ok := true, stdout := some "A", error := none }, false)
  ∧ jsSliceLast 4000 ("A" ++ "B") = "AB"
  ∧ (some "A" : Option String) ≠ some "AB" := by decide

/-- Witness for `runInstall_replies` at concrete success and failure runs. -/
theorem runInstall_replies_witness :
    handleRunInstall ⟨"out", "", 0⟩ true =
      ({ ok := true, stdout := some (jsSliceLast 4000 "out"), error := none }, true)
  ∧ handleRunInstall ⟨"", "boom", 2⟩ true =
      ({ ok := false, stdout := none,
         error := some ("install.sh failed (code " ++ toString (2 : Int) ++ "): " ++
           String.mk (dropTrailing jsWs (installFailTail ⟨"", "boom", 2⟩).data)) },
        false) :=
  runInstall_replies ⟨"out", "", 0⟩ ⟨"", "boom", 2⟩ true rfl (by decide) 'b'
    (by decide) (by decide)

end SvcAgent
